import Mathlib

/-!
Verification of the prompt-construction, HTML-extraction and remote-inference
normalization pipeline of a small Flask application (src/app.py).

Strings are modelled as lists of characters.  Python's case lowering is
modelled on the ASCII letters together with U+0130, the one code point whose
Python lowercase has a different length (it expands to two characters), so
that indices in the lowered copy shift against the original exactly as they
do in the program; the remaining non-ASCII characters are kept unchanged,
which neither moves indices (their lowering is one-to-one) nor creates or
destroys a marker match (no character lowers onto a character of the markers
searched for).  Python's whitespace set for str.strip is the set of Unicode
code points Python treats as whitespace.
-/

namespace App

/-- Code points Python treats as whitespace for str.strip / str.isspace. -/
def wsCodes : List Nat :=
  [9, 10, 11, 12, 13, 28, 29, 30, 31, 32, 133, 160, 5760,
   8192, 8193, 8194, 8195, 8196, 8197, 8198, 8199, 8200, 8201, 8202,
   8232, 8233, 8239, 8287, 12288]

/-- Whether a character is whitespace in the sense of Python str.strip. -/
def isWS (c : Char) : Bool := wsCodes.contains c.toNat

/-- Lower-casing of a single ASCII letter (other characters unchanged). -/
def pyToLower (c : Char) : Char :=
  match c with
  | 'A' => 'a' | 'B' => 'b' | 'C' => 'c' | 'D' => 'd' | 'E' => 'e'
  | 'F' => 'f' | 'G' => 'g' | 'H' => 'h' | 'I' => 'i' | 'J' => 'j'
  | 'K' => 'k' | 'L' => 'l' | 'M' => 'm' | 'N' => 'n' | 'O' => 'o'
  | 'P' => 'p' | 'Q' => 'q' | 'R' => 'r' | 'S' => 's' | 'T' => 't'
  | 'U' => 'u' | 'V' => 'v' | 'W' => 'w' | 'X' => 'x' | 'Y' => 'y'
  | 'Z' => 'z'
  | c => c

/-- Python lower-casing of one character as a string: U+0130 (LATIN CAPITAL
LETTER I WITH DOT ABOVE) expands to 'i' followed by U+0307 (COMBINING DOT
ABOVE) — the only code point whose Python lowercase is not a single
character — A-Z lower to a-z, and any other character stays itself (real
lower() maps some further non-ASCII characters one-to-one onto other
non-ASCII characters, which neither shifts indices nor affects whether an
ASCII marker matches at an index). -/
def pyLowerChar (c : Char) : List Char :=
  if c = 'İ' then ['i', '\u0307'] else [pyToLower c]

/-- Model of Python str.lower (`result.lower()` in the source): concatenation
of the per-character lowerings; not length-preserving on strings containing
U+0130. -/
def lowerStr (s : List Char) : List Char := s.flatMap pyLowerChar

/-- Length-preserving character-wise lowering; agrees with lowerStr exactly
on the strings without U+0130. -/
def lowerMap (s : List Char) : List Char := s.map pyToLower

/-- Whether the string contains U+0130, the one character whose lowering
changes the length. -/
def hasDottedI (s : List Char) : Bool := s.contains 'İ'

/-- Model of Python str.lstrip: drop leading whitespace. -/
def stripL (s : List Char) : List Char := s.dropWhile isWS

/-- Model of Python str.rstrip: drop trailing whitespace. -/
def stripR (s : List Char) : List Char := (s.reverse.dropWhile isWS).reverse

/-- Model of Python str.strip: drop leading and trailing whitespace
(`result.strip()` in the source). -/
def strip (s : List Char) : List Char := stripR (stripL s)

/-- Whether the first list is an initial segment of the second. -/
def isPre : List Char → List Char → Bool
  | [], _ => true
  | _ :: _, [] => false
  | a :: as, b :: bs => a == b && isPre as bs

/-- Model of Python str.find: index of the first occurrence of the needle in
the haystack, none when absent (Python returns -1 there). -/
def strFind (hay needle : List Char) : Option Nat :=
  if isPre needle hay then some 0
  else
    match hay with
    | [] => none
    | _ :: t => Option.map (fun n => n + 1) (strFind t needle)

/-- The marker checked first. -/
def dMark : List Char := String.toList "<!doctype"

/-- The marker checked second. -/
def hMark : List Char := String.toList "<html"

/-- The third candidate of the table (unreachable: it starts with the first
candidate, so it is found only where the first is). -/
def dhMark : List Char := String.toList "<!doctype html"

/-- The marker table of the source, in its order:
`candidates = ["<!doctype", "<html", "<!doctype html"]`. -/
def candidates : List (List Char) := [dMark, hMark, dhMark]

/-- The loop of the source: try each candidate with find, break at the first
one present. -/
def findMarker (lowered : List Char) : List (List Char) → Option Nat
  | [] => none
  | c :: rest =>
    match strFind lowered c with
    | some pos => some pos
    | none => findMarker lowered rest

/-- The HTML Extractor (post-processing of `generate`, src/app.py lines
179-190): lower-case a scratch copy, look for the first marker of the
candidate table, slice the original-case string there, and strip. -/
def extractHtml (result : List Char) : List Char :=
  let lowered := lowerStr result
  match findMarker lowered candidates with
  | some idx => strip (List.drop idx result)
  | none => strip result

example : extractHtml (String.toList "  hello <HTML><body>x</body></html> world") =
    String.toList "<HTML><body>x</body></html> world" := by decide

example : extractHtml (String.toList " x <html><!DOCTYPE html>") =
    String.toList "<!DOCTYPE html>" := by decide

example : extractHtml (String.toList "  no marker here  ") =
    String.toList "no marker here" := by decide

/-! ## Prompt Builder

`PROMPT_TEMPLATE` of src/app.py is the concatenation of a dedented directive
block, the line tail "User request: " followed by the user text substituted by
str.format, and the closing "\n\nHTML_CODE:\n" (textwrap.dedent is the
identity on this text: the line starting HTML_CODE has no indentation, so the
common margin is empty, and no line consists solely of spaces or tabs). -/

/-- Everything of the formatted template that precedes the user text. -/
def promptDirectives : List Char := String.toList
  ("\n    /* You are a code generation model. Produce only valid HTML code (single file). */\n" ++
   "    /* DO NOT add any explanation, commentary, or non-code text. */\n" ++
   "    /* Output must start with <!doctype html> or <html> and be ready to save as .html. */\n" ++
   "    /* Keep CSS and JS minimal and inline unless the prompt explicitly requests external files. */\n" ++
   "    /* Ensure the HTML is accessible (proper headings, alt attributes for images if present). */\n" ++
   "    User request: ")

/-- Everything of the formatted template that follows the user text. -/
def promptTail : List Char := String.toList "\n\nHTML_CODE:\n"

/-- `PROMPT_TEMPLATE.format(user_request=user_prompt)` (src/app.py line 168). -/
def buildPrompt (userRequest : List Char) : List Char :=
  promptDirectives ++ userRequest ++ promptTail

/-! ## Remote inference call (`call_hf_inference`, src/app.py lines 103-153)

The decoded JSON response body is modelled by an inductive value; the
environment of one call (the credential and the response the network would
produce) is passed in explicitly, and the number of HTTP requests issued is
returned alongside the outcome. -/

/-- Decoded JSON values.  Objects are association lists in insertion order
(json.loads yields unique keys). -/
inductive Json where
  | str : List Char → Json
  | num : Int → Json
  | bool : Bool → Json
  | null : Json
  | arr : List Json → Json
  | obj : List (List Char × Json) → Json


/-- Key lookup in a decoded JSON object (unique keys). -/
def jsonLookup : List (List Char × Json) → List Char → Option Json
  | [], _ => none
  | (k, v) :: rest, key => if k = key then some v else jsonLookup rest key

/-- The dictionary key the normalization looks for. -/
def genTextKey : List Char := String.toList "generated_text"

/-- Branch 1 of the normalization: a dict with a generated_text field
(`isinstance(data, dict) and "generated_text" in data`). -/
def shape1 : Json → Option Json
  | Json.obj kvs => jsonLookup kvs genTextKey
  | _ => none

/-- Branch 2: a non-empty list whose first element is a dict with a
generated_text field. -/
def shape2 : Json → Option Json
  | Json.arr (Json.obj kvs :: _) => jsonLookup kvs genTextKey
  | _ => none

/-- Branch 3: a bare JSON string. -/
def shape3 : Json → Option Json
  | Json.str s => some (Json.str s)
  | _ => none

/-- One item of the last-fallback loop: a dict yields its first value that is
a string non-empty after strip (`isinstance(v, str) and v.strip()`); anything
else yields nothing. -/
def scanItem : Json → Option (List Char)
  | Json.obj kvs =>
    kvs.findSome? fun kv =>
      match kv.2 with
      | Json.str v => if (strip v).isEmpty then none else some v
      | _ => none
  | _ => none

/-- The last fallback of the normalization: iterate over the list (or over the
singleton of the payload when it is not a list) and return the first
string-like dict value found. -/
def fallbackScan (data : Json) : Option (List Char) :=
  match data with
  | Json.arr items => items.findSome? scanItem
  | d => scanItem d

/-- Normalization of a decoded 200 response (src/app.py lines 132-150): the
three shapes in order, then the fallback scan, then the failure carrying the
decoded payload. -/
def normalizeHf (data : Json) : Except Json Json :=
  match shape1 data with
  | some v => Except.ok v
  | none =>
    match shape2 data with
    | some v => Except.ok v
    | none =>
      match shape3 data with
      | some v => Except.ok v
      | none =>
        match fallbackScan data with
        | some s => Except.ok (Json.str s)
        | none => Except.error data

/-- What one HTTP exchange would return: the status code, the raw body text,
and the decoded JSON body (none models a json-decode failure). -/
structure HttpResp where
  status : Nat
  text : List Char
  json : Option Json


/-- The failure modes of `call_hf_inference` (each a RuntimeError in the
source, distinguished here by their messages' content). -/
inductive HfError where
  | configError : HfError
  | invalidJson : List Char → HfError
  | httpError : Nat → List Char → HfError
  | unexpectedFormat : Json → HfError


/-- Python truthiness of the optional HF_API_TOKEN string
(`if not HF_API_TOKEN`): unset or empty. -/
def tokenFalsy : Option (List Char) → Bool
  | none => true
  | some t => t.isEmpty

/-- `call_hf_inference` (src/app.py lines 103-153) over an explicit
environment: the prompt and max_length go into the request payload and do not
affect the branching; the call returns the outcome and the number of HTTP
requests issued. -/
def callHfInference (prompt : List Char) (maxLength : Nat)
    (token : Option (List Char)) (resp : HttpResp) :
    Except HfError Json × Nat :=
  if tokenFalsy token then (Except.error HfError.configError, 0)
  else if resp.status = 200 then
    match resp.json with
    | none => (Except.error (HfError.invalidJson resp.text), 1)
    | some data =>
      match normalizeHf data with
      | Except.ok v => (Except.ok v, 1)
      | Except.error d => (Except.error (HfError.unexpectedFormat d), 1)
  else (Except.error (HfError.httpError resp.status resp.text), 1)

/-! ## The generate endpoint (src/app.py lines 160-192) -/

/-- Outcome of one POST to /generate: the validation rejection (flash and
redirect), a flashed generation failure, the rendered page with the extracted
HTML, or the uncaught exception were the normalized value not a string
(`result.lower()` would fail outside the try block). -/
inductive GenOutcome where
  | validationReject : GenOutcome
  | generationFailed : HfError → GenOutcome
  | success : List Char → GenOutcome
  | typeCrash : Json → GenOutcome


/-- Trace of one request: the outcome, how many times the backend operation
`call_hf_inference` was invoked, and how many HTTP requests went out. -/
structure GenTrace where
  outcome : GenOutcome
  backendCalls : Nat
  httpRequests : Nat


/-- The /generate handler: `request.form.get("prompt", "")` (absent field
defaults to the empty string), strip, the emptiness validation, prompt
construction, the backend call, and the HTML extraction. -/
def generateEndpoint (form : Option (List Char)) (token : Option (List Char))
    (resp : HttpResp) : GenTrace :=
  let userPrompt := strip (form.getD [])
  if userPrompt.isEmpty then
    { outcome := GenOutcome.validationReject, backendCalls := 0, httpRequests := 0 }
  else
    let fullPrompt := buildPrompt userPrompt
    match callHfInference fullPrompt 900 token resp with
    | (Except.error e, n) =>
      { outcome := GenOutcome.generationFailed e, backendCalls := 1, httpRequests := n }
    | (Except.ok (Json.str s), n) =>
      { outcome := GenOutcome.success (extractHtml s), backendCalls := 1, httpRequests := n }
    | (Except.ok v, n) =>
      { outcome := GenOutcome.typeCrash v, backendCalls := 1, httpRequests := n }

/-! ## Lemmas about the string primitives -/

theorem isPre_iff (n h : List Char) : isPre n h = true ↔ ∃ t, n ++ t = h := by
  induction n generalizing h with
  | nil => simp [isPre]
  | cons a as ih =>
    cases h with
    | nil =>
      simp only [isPre, List.cons_append]
      constructor
      · intro hfalse; cases hfalse
      · rintro ⟨t, ht⟩; cases ht
    | cons b bs =>
      simp only [isPre, Bool.and_eq_true, beq_iff_eq, ih, List.cons_append, List.cons.injEq]
      constructor
      · rintro ⟨rfl, t, rfl⟩; exact ⟨t, rfl, rfl⟩
      · rintro ⟨t, rfl, rfl⟩; exact ⟨rfl, t, rfl⟩

theorem strFind_zero_of (hay n : List Char) (h : ∃ t, n ++ t = hay) :
    strFind hay n = some 0 := by
  unfold strFind
  rw [if_pos ((isPre_iff n hay).mpr h)]

theorem strFind_some_spec (hay n : List Char) (p : Nat) (h : strFind hay n = some p) :
    ∃ a b, a ++ n ++ b = hay ∧ a.length = p := by
  induction hay generalizing p with
  | nil =>
    unfold strFind at h
    split at h
    · obtain ⟨t, ht⟩ := (isPre_iff n []).mp (by assumption)
      cases h
      exact ⟨[], t, by simpa using ht, rfl⟩
    · cases h
  | cons c t ih =>
    unfold strFind at h
    split at h
    · obtain ⟨u, hu⟩ := (isPre_iff n (c :: t)).mp (by assumption)
      cases h
      exact ⟨[], u, by simpa using hu, rfl⟩
    · rw [Option.map_eq_some'] at h
      obtain ⟨q, hq, rfl⟩ := h
      obtain ⟨a, b, hab, hlen⟩ := ih q hq
      exact ⟨c :: a, b, by simp [hab], by simp [hlen]⟩

theorem strFind_none_spec (hay n : List Char) (h : strFind hay n = none) :
    ∀ a b, a ++ n ++ b ≠ hay := by
  induction hay with
  | nil =>
    intro a b hab
    simp only [List.append_eq_nil] at hab
    obtain ⟨⟨rfl, rfl⟩, rfl⟩ := hab
    simp [strFind, isPre] at h
  | cons c t ih =>
    intro a b hab
    unfold strFind at h
    split at h
    · cases h
    · rw [Option.map_eq_none'] at h
      cases a with
      | nil =>
        simp only [List.nil_append] at hab
        exact absurd ((isPre_iff n (c :: t)).mpr ⟨b, hab⟩) (by simp_all)
      | cons x xs =>
        simp only [List.cons_append, List.cons.injEq] at hab
        exact ih h xs b hab.2

theorem strFind_none_sub (hay s a b n : List Char) (hn : strFind hay n = none)
    (hsub : a ++ s ++ b = hay) : strFind s n = none := by
  cases hfind : strFind s n with
  | none => rfl
  | some j =>
    obtain ⟨x, y, hxy, _⟩ := strFind_some_spec s n j hfind
    have hocc : (a ++ x) ++ n ++ (y ++ b) = hay := by
      rw [← hsub, ← hxy]; simp [List.append_assoc]
    exact absurd hocc (strFind_none_spec hay n hn (a ++ x) (y ++ b))

theorem strFind_none_ext (hay n1 n2 : List Char) (hn : strFind hay n1 = none)
    (hpre : ∃ t, n1 ++ t = n2) : strFind hay n2 = none := by
  obtain ⟨t, ht⟩ := hpre
  cases hfind : strFind hay n2 with
  | none => rfl
  | some j =>
    obtain ⟨x, y, hxy, _⟩ := strFind_some_spec hay n2 j hfind
    have hocc : x ++ n1 ++ (t ++ y) = hay := by
      rw [← hxy, ← ht]; simp [List.append_assoc]
    exact absurd hocc (strFind_none_spec hay n1 hn x (t ++ y))

theorem dropWhile_suf (p : Char → Bool) (l : List Char) :
    ∃ t, t ++ List.dropWhile p l = l := by
  induction l with
  | nil => exact ⟨[], rfl⟩
  | cons c t ih =>
    by_cases hc : p c = true
    · obtain ⟨u, hu⟩ := ih
      exact ⟨c :: u, by simp [List.dropWhile_cons, hc, hu]⟩
    · exact ⟨[], by simp [List.dropWhile_cons, hc]⟩

theorem dropWhile_idem (p : Char → Bool) (l : List Char) :
    List.dropWhile p (List.dropWhile p l) = List.dropWhile p l := by
  induction l with
  | nil => rfl
  | cons c t ih =>
    by_cases hc : p c = true
    · simp [List.dropWhile_cons, hc, ih]
    · simp [List.dropWhile_cons, hc]

theorem dropWhile_len (p : Char → Bool) (l : List Char) :
    (List.dropWhile p l).length ≤ l.length := by
  induction l with
  | nil => simp
  | cons c t ih =>
    by_cases hc : p c = true
    · simp only [List.dropWhile_cons, if_pos hc, List.length_cons]
      omega
    · simp [List.dropWhile_cons, hc]

theorem dropWhile_keep (p : Char → Bool) (y x : List Char)
    (hx : List.dropWhile p x = x) (hpre : ∃ t, y ++ t = x) :
    List.dropWhile p y = y := by
  obtain ⟨t, rfl⟩ := hpre
  cases y with
  | nil => rfl
  | cons c y' =>
    have hc : p c = false := by
      by_contra hcontra
      rw [Bool.not_eq_false] at hcontra
      have hlen := congrArg List.length hx
      rw [List.cons_append, List.dropWhile_cons, if_pos hcontra] at hlen
      have hle := dropWhile_len p (y' ++ t)
      simp only [List.length_cons] at hlen
      omega
    simp [List.dropWhile_cons, hc]

theorem stripR_pre (l : List Char) : ∃ t, stripR l ++ t = l := by
  obtain ⟨t, ht⟩ := dropWhile_suf isWS l.reverse
  refine ⟨t.reverse, ?_⟩
  have := congrArg List.reverse ht
  simpa [stripR, List.reverse_append] using this

theorem stripR_idem (l : List Char) : stripR (stripR l) = stripR l := by
  simp [stripR, List.reverse_reverse, dropWhile_idem]

theorem stripR_app (m rest : List Char)
    (h : List.dropWhile isWS m.reverse = m.reverse) :
    stripR (m ++ rest) = m ++ stripR rest := by
  unfold stripR
  rw [List.reverse_append, List.dropWhile_append]
  by_cases he : (List.dropWhile isWS rest.reverse).isEmpty = true
  · rw [if_pos he, h]
    have : List.dropWhile isWS rest.reverse = [] := by
      simpa [List.isEmpty_iff] using he
    simp [this]
  · rw [if_neg he]
    simp [List.reverse_append]

theorem stripL_suf (l : List Char) : ∃ t, t ++ stripL l = l :=
  dropWhile_suf isWS l

theorem stripL_cons_of (c : Char) (l : List Char) (h : isWS c = false) :
    stripL (c :: l) = c :: l := by
  simp [stripL, List.dropWhile_cons, h]

theorem strip_sub (l : List Char) : ∃ a b, a ++ strip l ++ b = l := by
  obtain ⟨a, ha⟩ := stripL_suf l
  obtain ⟨b, hb⟩ := stripR_pre (stripL l)
  refine ⟨a, b, ?_⟩
  calc a ++ strip l ++ b = a ++ (stripR (stripL l) ++ b) := by
        simp [strip, List.append_assoc]
    _ = a ++ stripL l := by rw [hb]
    _ = l := ha

theorem strip_drop_sub (R : List Char) (p : Nat) :
    ∃ a b, a ++ strip (List.drop p R) ++ b = R := by
  obtain ⟨a, b, hab⟩ := strip_sub (List.drop p R)
  refine ⟨List.take p R ++ a, b, ?_⟩
  calc (List.take p R ++ a) ++ strip (List.drop p R) ++ b
      = List.take p R ++ (a ++ strip (List.drop p R) ++ b) := by
        simp [List.append_assoc]
    _ = List.take p R ++ List.drop p R := by rw [hab]
    _ = R := List.take_append_drop p R

theorem strip_idem (l : List Char) : strip (strip l) = strip l := by
  have hx : List.dropWhile isWS (stripL l) = stripL l := dropWhile_idem isWS l
  have hL : stripL (stripR (stripL l)) = stripR (stripL l) :=
    dropWhile_keep isWS (stripR (stripL l)) (stripL l) hx (stripR_pre (stripL l))
  show stripR (stripL (stripR (stripL l))) = stripR (stripL l)
  rw [hL, stripR_idem]

theorem isWS_pyToLower (c : Char) : isWS (pyToLower c) = isWS c := by
  unfold pyToLower
  split <;> rfl

theorem lowerMap_dropWhile (l : List Char) :
    List.dropWhile isWS (lowerMap l) = lowerMap (List.dropWhile isWS l) := by
  induction l with
  | nil => rfl
  | cons c t ih =>
    by_cases hc : isWS c = true
    · simp [lowerMap, List.dropWhile_cons, hc, isWS_pyToLower] at ih ⊢
      exact ih
    · simp only [Bool.not_eq_true] at hc
      simp [lowerMap, List.dropWhile_cons, hc, isWS_pyToLower]

theorem lowerMap_app (a b : List Char) : lowerMap (a ++ b) = lowerMap a ++ lowerMap b :=
  List.map_append pyToLower a b

theorem lowerMap_reverse (l : List Char) : lowerMap l.reverse = (lowerMap l).reverse :=
  List.map_reverse pyToLower l

theorem lowerMap_stripR (l : List Char) : lowerMap (stripR l) = stripR (lowerMap l) := by
  unfold stripR
  rw [lowerMap_reverse, ← lowerMap_dropWhile, lowerMap_reverse]

theorem lowerStr_eq_lowerMap (s : List Char) (h : hasDottedI s = false) :
    lowerStr s = lowerMap s := by
  induction s with
  | nil => rfl
  | cons c t ih =>
    have hmem : ¬('İ' = c ∨ 'İ' ∈ t) := by
      intro hor
      have hin : 'İ' ∈ c :: t := by
        cases hor with
        | inl h1 => rw [h1]; exact List.mem_cons_self c t
        | inr h2 => exact List.mem_cons_of_mem c h2
      simp [hasDottedI, hin] at h
    have hc : c ≠ 'İ' := fun hEq => hmem (Or.inl hEq.symm)
    have ht : hasDottedI t = false := by
      show t.contains 'İ' = false
      simpa using fun h2 => hmem (Or.inr h2)
    simp [lowerStr, lowerMap, pyLowerChar, hc] at ih ⊢
    exact ih ht

theorem hasDottedI_sub (R s a b : List Char) (h : hasDottedI R = false)
    (hab : a ++ s ++ b = R) : hasDottedI s = false := by
  by_contra hcontra
  rw [Bool.not_eq_false] at hcontra
  have hmem : 'İ' ∈ s := by simpa [hasDottedI] using hcontra
  have hmemR : 'İ' ∈ R := by
    rw [← hab]
    exact List.mem_append.mpr (Or.inl (List.mem_append.mpr (Or.inr hmem)))
  simp [hasDottedI, hmemR] at h

/-! ## Evaluation of the extractor by cases on the marker search -/

/-- Evaluation of the extractor when the first marker is found. -/
theorem extract_of_d (R : List Char) (p : Nat)
    (hd : strFind (lowerStr R) dMark = some p) :
    extractHtml R = strip (List.drop p R) := by
  simp only [extractHtml, candidates, findMarker, hd]

/-- Evaluation of the extractor when only the second marker is found. -/
theorem extract_of_h (R : List Char) (q : Nat)
    (hd : strFind (lowerStr R) dMark = none)
    (hh : strFind (lowerStr R) hMark = some q) :
    extractHtml R = strip (List.drop q R) := by
  simp only [extractHtml, candidates, findMarker, hd, hh]

/-- Evaluation of the extractor when neither marker is found: the third
candidate cannot be found either, since it extends the first. -/
theorem extract_of_none (R : List Char)
    (hd : strFind (lowerStr R) dMark = none)
    (hh : strFind (lowerStr R) hMark = none) :
    extractHtml R = strip R := by
  have hdh : strFind (lowerStr R) dhMark = none :=
    strFind_none_ext (lowerStr R) dMark dhMark hd ⟨String.toList " html", by decide⟩
  simp only [extractHtml, candidates, findMarker, hd, hh, hdh]

/-- A string whose lowering starts with a non-whitespace character is left
unchanged by lstrip. -/
theorem stripL_of_lowerHead (X : List Char) (mc : Char) (s : List Char)
    (hmc : isWS mc = false) (h : lowerMap X = mc :: s) : stripL X = X := by
  cases X with
  | nil => simp [lowerMap] at h
  | cons c t =>
    simp only [lowerMap, List.map_cons, List.cons.injEq] at h
    exact stripL_cons_of c t (by rw [← isWS_pyToLower, h.1]; exact hmc)

/-- Properties of the sliced-and-stripped output when a marker beginning and
ending in non-whitespace characters occurs at position p of the lowered
string: stripping the slice strips only the right end, the lowered output
still starts with the marker, and the output is a fixed point of strip. -/
theorem slice_output_props (R : List Char) (p : Nat) (m : List Char)
    (mc : Char) (mrest : List Char) (hm : m = mc :: mrest) (hmc : isWS mc = false)
    (hlast : List.dropWhile isWS m.reverse = m.reverse)
    (hocc : strFind (lowerMap R) m = some p) :
    strip (List.drop p R) = stripR (List.drop p R) ∧
    (∃ t, m ++ t = lowerMap (strip (List.drop p R))) ∧
    strip (strip (List.drop p R)) = strip (List.drop p R) := by
  obtain ⟨a, b, hab, hlen⟩ := strFind_some_spec (lowerMap R) m p hocc
  have hdropLow : List.drop p (lowerMap R) = m ++ b := by
    rw [← hlen, ← hab, List.append_assoc]
    exact List.drop_left a (m ++ b)
  have hlow : lowerMap (List.drop p R) = m ++ b := by
    rw [lowerMap, List.map_drop]
    exact hdropLow
  have hsl : stripL (List.drop p R) = List.drop p R :=
    stripL_of_lowerHead _ mc (mrest ++ b) hmc (by rw [hlow, hm]; simp)
  have h1 : strip (List.drop p R) = stripR (List.drop p R) := by rw [strip, hsl]
  have h2 : lowerMap (strip (List.drop p R)) = m ++ stripR b := by
    rw [h1, lowerMap_stripR, hlow, stripR_app m b hlast]
  have hX : stripL (strip (List.drop p R)) = strip (List.drop p R) :=
    stripL_of_lowerHead _ mc (mrest ++ stripR b) hmc (by rw [h2, hm]; simp)
  have h3 : strip (strip (List.drop p R)) = strip (List.drop p R) := by
    rw [strip, hX, h1, stripR_idem]
  exact ⟨h1, ⟨stripR b, h2.symm⟩, h3⟩

/-! ## Claims about the HTML Extractor -/

/-- C2 counterexample: the slice index is not the case-insensitive position
of the doctype marker in the original string.  In "İ<!doctype x" the marker
matches case-insensitively at original index 1 (and nowhere earlier), but
Python lowercases U+0130 to two characters, so the program finds index 2 in
the lowered copy, slices the original there and returns "!doctype x" instead
of the claimed trim of the slice from 1. -/
theorem extractor_doctype_slice_counterexample :
    isPre dMark (lowerStr (List.drop 1 (String.toList "İ<!doctype x"))) = true ∧
    isPre dMark (lowerStr (String.toList "İ<!doctype x")) = false ∧
    extractHtml (String.toList "İ<!doctype x") = String.toList "!doctype x" ∧
    strip (List.drop 1 (String.toList "İ<!doctype x")) = String.toList "<!doctype x" ∧
    extractHtml (String.toList "İ<!doctype x") ≠
      strip (List.drop 1 (String.toList "İ<!doctype x")) := by
  refine ⟨by decide, by decide, by decide, by decide, by decide⟩

/-- C2 (amended): for every raw string whose lowered copy contains the
doctype marker first at index p, the Extractor returns the stripped slice of
the original-case string from that same index p — the index is computed in
the lowered copy and coincides with the case-insensitive position in the
original exactly when no length-changing character (U+0130) precedes the
marker — with no hypothesis about where an html marker may occur, since the
doctype candidate is checked strictly first by table order. -/
theorem extractor_doctype_slice (R : List Char) (p : Nat)
    (h : strFind (lowerStr R) dMark = some p) :
    extractHtml R = strip (List.drop p R) :=
  extract_of_d R p h

theorem extractor_doctype_slice_witness :
    strFind (lowerStr (String.toList " <html x <!DOCTYPE y")) dMark = some 9 ∧
    extractHtml (String.toList " <html x <!DOCTYPE y") =
      strip (List.drop 9 (String.toList " <html x <!DOCTYPE y")) ∧
    extractHtml (String.toList " <html x <!DOCTYPE y") = String.toList "<!DOCTYPE y" :=
  ⟨by decide, extractor_doctype_slice (String.toList " <html x <!DOCTYPE y") 9 (by decide),
   by decide⟩

/-- C3 counterexample: in "İ<html>x" (no doctype marker) the html marker
matches case-insensitively at original index 1 and nowhere earlier, but the
program finds index 2 in the lowered copy — U+0130 lowers to two
characters — slices the original there and returns "html>x" instead of the
claimed trim of the slice from 1. -/
theorem extractor_html_slice_counterexample :
    strFind (lowerStr (String.toList "İ<html>x")) dMark = none ∧
    isPre hMark (lowerStr (List.drop 1 (String.toList "İ<html>x"))) = true ∧
    isPre hMark (lowerStr (String.toList "İ<html>x")) = false ∧
    extractHtml (String.toList "İ<html>x") = String.toList "html>x" ∧
    strip (List.drop 1 (String.toList "İ<html>x")) = String.toList "<html>x" ∧
    extractHtml (String.toList "İ<html>x") ≠
      strip (List.drop 1 (String.toList "İ<html>x")) := by
  refine ⟨by decide, by decide, by decide, by decide, by decide, by decide⟩

/-- C3 (amended): for every raw string whose lowered copy contains the html
marker first at index q and the doctype marker nowhere, the Extractor returns
the stripped slice of the original-case string from that same index q — the
index is computed in the lowered copy and coincides with the case-insensitive
position in the original exactly when no U+0130 precedes the marker; the
spec's scenario (which contains no such character) is unchanged and witnessed
below. -/
theorem extractor_html_slice (R : List Char) (q : Nat)
    (hd : strFind (lowerStr R) dMark = none)
    (hh : strFind (lowerStr R) hMark = some q) :
    extractHtml R = strip (List.drop q R) :=
  extract_of_h R q hd hh

theorem extractor_html_slice_witness :
    strFind (lowerStr (String.toList "  hello <HTML><body>x</body></html> world")) dMark = none ∧
    strFind (lowerStr (String.toList "  hello <HTML><body>x</body></html> world")) hMark = some 8 ∧
    extractHtml (String.toList "  hello <HTML><body>x</body></html> world") =
      String.toList "<HTML><body>x</body></html> world" :=
  ⟨by decide, by decide,
   (extractor_html_slice (String.toList "  hello <HTML><body>x</body></html> world") 8
     (by decide) (by decide)).trans (by decide)⟩

/-- C4: for every raw string containing neither marker (case-insensitively),
the Extractor returns the whole string stripped of surrounding whitespace;
being a total function, it produces an output for every input. -/
theorem extractor_no_marker (R : List Char)
    (hd : strFind (lowerStr R) dMark = none)
    (hh : strFind (lowerStr R) hMark = none) :
    extractHtml R = strip R :=
  extract_of_none R hd hh

theorem extractor_no_marker_witness :
    strFind (lowerStr (String.toList "  sorry, no markup today  ")) dMark = none ∧
    strFind (lowerStr (String.toList "  sorry, no markup today  ")) hMark = none ∧
    extractHtml (String.toList "  sorry, no markup today  ") =
      strip (String.toList "  sorry, no markup today  ") :=
  ⟨by decide, by decide,
   extractor_no_marker (String.toList "  sorry, no markup today  ") (by decide) (by decide)⟩

/-- C5 counterexample: the Extractor is not idempotent.  Python lowercases
U+0130 to two characters, so in "İ<html X <html Y" the html marker is found at
index 2 of the lowered copy and the original is sliced there, returning
"html X <html Y" — whose second extraction finds the intact second marker and
returns "<html Y". -/
theorem extractor_idem_counterexample :
    extractHtml (String.toList "İ<html X <html Y") = String.toList "html X <html Y" ∧
    extractHtml (extractHtml (String.toList "İ<html X <html Y")) =
      String.toList "<html Y" ∧
    extractHtml (extractHtml (String.toList "İ<html X <html Y")) ≠
      extractHtml (String.toList "İ<html X <html Y") := by
  refine ⟨by decide, by decide, by decide⟩

/-- C5 (amended): the Extractor is idempotent on every raw string containing
no U+0130 character — the one character whose Python lowering changes the
string length and thereby misaligns the slice index against the original-case
string. -/
theorem extractor_idem (R : List Char) (hR : hasDottedI R = false) :
    extractHtml (extractHtml R) = extractHtml R := by
  have hLR : lowerStr R = lowerMap R := lowerStr_eq_lowerMap R hR
  cases hd : strFind (lowerMap R) dMark with
  | some p =>
    have hd' : strFind (lowerStr R) dMark = some p := by rw [hLR]; exact hd
    have hE : extractHtml R = strip (List.drop p R) := extract_of_d R p hd'
    obtain ⟨h1, ⟨t, ht⟩, h3⟩ :=
      slice_output_props R p dMark '<' (String.toList "!doctype")
        (by decide) (by decide) (by decide) hd
    obtain ⟨a, b, hab⟩ := strip_drop_sub R p
    have hO : hasDottedI (strip (List.drop p R)) = false :=
      hasDottedI_sub R _ a b hR hab
    have hLO : lowerStr (strip (List.drop p R)) = lowerMap (strip (List.drop p R)) :=
      lowerStr_eq_lowerMap _ hO
    have hd0 : strFind (lowerStr (extractHtml R)) dMark = some 0 := by
      rw [hE, hLO]
      exact strFind_zero_of _ _ ⟨t, ht⟩
    have heval : extractHtml (extractHtml R) = strip (List.drop 0 (extractHtml R)) :=
      extract_of_d _ 0 hd0
    rw [heval, List.drop_zero, hE]
    exact h3
  | none =>
    cases hh : strFind (lowerMap R) hMark with
    | some q =>
      have hd' : strFind (lowerStr R) dMark = none := by rw [hLR]; exact hd
      have hh' : strFind (lowerStr R) hMark = some q := by rw [hLR]; exact hh
      have hE : extractHtml R = strip (List.drop q R) := extract_of_h R q hd' hh'
      obtain ⟨h1, ⟨t, ht⟩, h3⟩ :=
        slice_output_props R q hMark '<' (String.toList "html")
          (by decide) (by decide) (by decide) hh
      obtain ⟨a, b, hab⟩ := strip_drop_sub R q
      have hO : hasDottedI (strip (List.drop q R)) = false :=
        hasDottedI_sub R _ a b hR hab
      have hLO : lowerStr (strip (List.drop q R)) = lowerMap (strip (List.drop q R)) :=
        lowerStr_eq_lowerMap _ hO
      have hd2 : strFind (lowerStr (extractHtml R)) dMark = none := by
        rw [hE, hLO]
        refine strFind_none_sub (lowerMap R) _ (lowerMap a) (lowerMap b) _ hd ?_
        rw [← lowerMap_app, ← lowerMap_app, hab]
      have hh0 : strFind (lowerStr (extractHtml R)) hMark = some 0 := by
        rw [hE, hLO]
        exact strFind_zero_of _ _ ⟨t, ht⟩
      have heval : extractHtml (extractHtml R) = strip (List.drop 0 (extractHtml R)) :=
        extract_of_h _ 0 hd2 hh0
      rw [heval, List.drop_zero, hE]
      exact h3
    | none =>
      have hd' : strFind (lowerStr R) dMark = none := by rw [hLR]; exact hd
      have hh' : strFind (lowerStr R) hMark = none := by rw [hLR]; exact hh
      have hE : extractHtml R = strip R := extract_of_none R hd' hh'
      obtain ⟨a, b, hab⟩ := strip_sub R
      have hO : hasDottedI (strip R) = false := hasDottedI_sub R _ a b hR hab
      have hLO : lowerStr (strip R) = lowerMap (strip R) := lowerStr_eq_lowerMap _ hO
      have hd2 : strFind (lowerStr (extractHtml R)) dMark = none := by
        rw [hE, hLO]
        refine strFind_none_sub (lowerMap R) _ (lowerMap a) (lowerMap b) _ hd ?_
        rw [← lowerMap_app, ← lowerMap_app, hab]
      have hh2 : strFind (lowerStr (extractHtml R)) hMark = none := by
        rw [hE, hLO]
        refine strFind_none_sub (lowerMap R) _ (lowerMap a) (lowerMap b) _ hh ?_
        rw [← lowerMap_app, ← lowerMap_app, hab]
      rw [extract_of_none _ hd2 hh2, hE, strip_idem]

theorem extractor_idem_witness :
    hasDottedI (String.toList "  hello <HTML><body>x</body></html> world") = false ∧
    extractHtml (extractHtml (String.toList "  hello <HTML><body>x</body></html> world")) =
      extractHtml (String.toList "  hello <HTML><body>x</body></html> world") :=
  ⟨by decide, extractor_idem (String.toList "  hello <HTML><body>x</body></html> world")
    (by decide)⟩

/-! ## Claims about the Prompt Builder -/

/-- C6: for every non-empty user string, the built prompt contains the user
string verbatim as a substring (no escaping or transformation), contains the
labeled insertion point HTML_CODE:, and contains the full fixed directive
text. -/
theorem prompt_contains_user_verbatim (u : List Char) (h : u ≠ []) :
    (∃ a b, a ++ u ++ b = buildPrompt u) ∧
    (∃ a b, a ++ String.toList "HTML_CODE:" ++ b = buildPrompt u) ∧
    (∃ b, promptDirectives ++ b = buildPrompt u) := by
  refine ⟨⟨promptDirectives, promptTail, rfl⟩, ?_,
    ⟨u ++ promptTail, (List.append_assoc promptDirectives u promptTail).symm⟩⟩
  refine ⟨promptDirectives ++ u ++ String.toList "\n\n", String.toList "\n", ?_⟩
  have htail : String.toList "\n\n" ++ (String.toList "HTML_CODE:" ++ String.toList "\n") =
      promptTail := by decide
  calc (promptDirectives ++ u ++ String.toList "\n\n") ++ String.toList "HTML_CODE:" ++
        String.toList "\n"
      = promptDirectives ++ u ++
          (String.toList "\n\n" ++ (String.toList "HTML_CODE:" ++ String.toList "\n")) := by
        simp [List.append_assoc]
    _ = promptDirectives ++ u ++ promptTail := by rw [htail]
    _ = buildPrompt u := rfl

theorem prompt_contains_user_verbatim_witness :
    (∃ a b, a ++ String.toList "a bakery page" ++ b =
      buildPrompt (String.toList "a bakery page")) ∧
    (∃ a b, a ++ String.toList "HTML_CODE:" ++ b =
      buildPrompt (String.toList "a bakery page")) ∧
    (∃ b, promptDirectives ++ b = buildPrompt (String.toList "a bakery page")) :=
  prompt_contains_user_verbatim (String.toList "a bakery page") (by decide)

/-! ## Claims about the remote backend call -/

/-- C7: with a falsy credential (unset or empty), the call fails with the
configuration error and issues no HTTP request, for every prompt, token
budget and would-be response. -/
theorem missing_token_no_request (prompt : List Char) (maxLength : Nat)
    (token : Option (List Char)) (resp : HttpResp)
    (h : tokenFalsy token = true) :
    callHfInference prompt maxLength token resp =
      (Except.error HfError.configError, 0) := by
  simp [callHfInference, h]

theorem missing_token_no_request_witness :
    tokenFalsy none = true ∧
    callHfInference (String.toList "make a page") 900 none
        ⟨200, String.toList "body", none⟩ =
      (Except.error HfError.configError, 0) :=
  ⟨rfl, missing_token_no_request (String.toList "make a page") 900 none
    ⟨200, String.toList "body", none⟩ rfl⟩

/-- C8: with a credential present and any non-200 status, the call fails with
the backend error carrying the status code and the raw body, after exactly one
HTTP request (no retry). -/
theorem non_200_single_attempt (prompt : List Char) (maxLength : Nat)
    (token : Option (List Char)) (resp : HttpResp)
    (ht : tokenFalsy token = false) (hs : resp.status ≠ 200) :
    callHfInference prompt maxLength token resp =
      (Except.error (HfError.httpError resp.status resp.text), 1) := by
  simp [callHfInference, ht, hs]

theorem non_200_single_attempt_witness :
    tokenFalsy (some (String.toList "tok")) = false ∧
    (503 : Nat) ≠ 200 ∧
    callHfInference (String.toList "make a page") 900 (some (String.toList "tok"))
        ⟨503, String.toList "service unavailable", none⟩ =
      (Except.error (HfError.httpError 503 (String.toList "service unavailable")), 1) :=
  ⟨rfl, by decide,
   non_200_single_attempt (String.toList "make a page") 900 (some (String.toList "tok"))
     ⟨503, String.toList "service unavailable", none⟩ rfl (by decide)⟩

/-- C10: with a credential present, a 200 status and a body that is not valid
JSON, the call fails with the invalid-JSON error carrying the raw response
text; no generation result is produced. -/
theorem bad_json_no_result (prompt : List Char) (maxLength : Nat)
    (token : Option (List Char)) (resp : HttpResp)
    (ht : tokenFalsy token = false) (hs : resp.status = 200)
    (hj : resp.json = none) :
    callHfInference prompt maxLength token resp =
      (Except.error (HfError.invalidJson resp.text), 1) := by
  simp [callHfInference, ht, hs, hj]

theorem bad_json_no_result_witness :
    tokenFalsy (some (String.toList "tok")) = false ∧
    callHfInference (String.toList "make a page") 900 (some (String.toList "tok"))
        ⟨200, String.toList "<html>not json</html>", none⟩ =
      (Except.error (HfError.invalidJson (String.toList "<html>not json</html>")), 1) :=
  ⟨rfl, bad_json_no_result (String.toList "make a page") 900 (some (String.toList "tok"))
    ⟨200, String.toList "<html>not json</html>", none⟩ rfl rfl rfl⟩

/-! ## Claim about the generate endpoint validation -/

/-- C9: a submission whose text strips to empty (absent, empty or
whitespace-only) is rejected with the validation message; the backend
operation is not invoked and no HTTP request is made. -/
theorem empty_input_rejected (form : Option (List Char))
    (token : Option (List Char)) (resp : HttpResp)
    (h : strip (form.getD []) = []) :
    generateEndpoint form token resp =
      { outcome := GenOutcome.validationReject, backendCalls := 0, httpRequests := 0 } := by
  simp [generateEndpoint, h]

theorem empty_input_rejected_witness :
    strip ((some (String.toList "   ")).getD []) = [] ∧
    generateEndpoint (some (String.toList "   ")) (some (String.toList "tok"))
        ⟨200, String.toList "body", none⟩ =
      { outcome := GenOutcome.validationReject, backendCalls := 0, httpRequests := 0 } :=
  ⟨by decide, empty_input_rejected (some (String.toList "   "))
    (some (String.toList "tok")) ⟨200, String.toList "body", none⟩ (by decide)⟩

/-! ## Claim about the 200-response normalization -/

/-- C1 counterexample: the payload is a JSON object without a generated_text
field, so none of the three documented shapes matches — yet the normalization
returns a string instead of failing, through the undocumented last fallback
that scans dict values; at the call level the outcome is a success, not an
UnexpectedResponseShapeError. -/
theorem normalize_shapes_counterexample :
    shape1 (Json.obj [(String.toList "foo", Json.str (String.toList "bar"))]) = none ∧
    shape2 (Json.obj [(String.toList "foo", Json.str (String.toList "bar"))]) = none ∧
    shape3 (Json.obj [(String.toList "foo", Json.str (String.toList "bar"))]) = none ∧
    normalizeHf (Json.obj [(String.toList "foo", Json.str (String.toList "bar"))]) =
      Except.ok (Json.str (String.toList "bar")) ∧
    callHfInference (String.toList "make a page") 900 (some (String.toList "tok"))
        ⟨200, String.toList "raw",
         some (Json.obj [(String.toList "foo", Json.str (String.toList "bar"))])⟩ =
      (Except.ok (Json.str (String.toList "bar")), 1) := by
  refine ⟨?_, rfl, rfl, ?_, ?_⟩ <;> rfl

/-- C1 (amended): on a 200 response with a JSON body, the normalization tries
the three shapes in order and returns the first match; when none of the three
matches, a last fallback scans the payload (each element of a list payload, or
the payload itself) for a dict value that is a string non-empty after strip
and returns the first one found; only when that fallback also finds nothing
does it fail, carrying the raw decoded payload. -/
theorem normalize_shapes_in_order (data : Json) :
    (∀ v, shape1 data = some v → normalizeHf data = Except.ok v) ∧
    (shape1 data = none → ∀ v, shape2 data = some v → normalizeHf data = Except.ok v) ∧
    (shape1 data = none → shape2 data = none → ∀ v, shape3 data = some v →
      normalizeHf data = Except.ok v) ∧
    (shape1 data = none → shape2 data = none → shape3 data = none →
      ∀ s, fallbackScan data = some s → normalizeHf data = Except.ok (Json.str s)) ∧
    (shape1 data = none → shape2 data = none → shape3 data = none →
      fallbackScan data = none → normalizeHf data = Except.error data) := by
  refine ⟨?_, ?_, ?_, ?_, ?_⟩
  · intro v hv
    simp [normalizeHf, hv]
  · intro h1 v hv
    simp [normalizeHf, h1, hv]
  · intro h1 h2 v hv
    simp [normalizeHf, h1, h2, hv]
  · intro h1 h2 h3 s hs
    simp [normalizeHf, h1, h2, h3, hs]
  · intro h1 h2 h3 h4
    simp [normalizeHf, h1, h2, h3, h4]

theorem normalize_shapes_in_order_witness :
    normalizeHf (Json.obj []) = Except.error (Json.obj []) :=
  (normalize_shapes_in_order (Json.obj [])).2.2.2.2 rfl rfl rfl rfl

end App
